import Mathlib

/-!
Shallow embedding of the workspace scanner of `src/deepScanner.ts`
(class `DeepScanner`) together with the configuration defaults of
`src/config.ts`, and proofs about the specification's claims.

Modelling conventions:
* JavaScript strings are handled as `List Char` (`Str`) in the parsing
  layer and as `String` at the API boundary.
* Every regular expression of the source is implemented as an explicit
  character-level matcher with the exact backtracking behaviour of the
  JS engine on that pattern.
* The Node file system is a parameter `FileSys := String → Option String`
  (path to file content); `fs.existsSync` is modelled as membership.
* `path.dirname` / `path.resolve` / `path.join` are modelled for plain
  slash-separated paths; dot-segment normalisation is not modelled
  (no input in this development contains `.` or `..` segments).
* Recursion that the source bounds by the mutable `processedFiles` set is
  bounded here by an explicit fuel argument; theorems quantify over
  sufficient fuel where termination is part of the claim.
-/

namespace SpecScan

abbrev Str := List Char

def lbrace : Char := Char.ofNat 123

def rbrace : Char := Char.ofNat 125

def squote : Char := Char.ofNat 39

def dquote : Char := Char.ofNat 34

/-- Whitespace characters of the JS regex class `\s` (ASCII part). -/
def isWsChar (c : Char) : Bool :=
  c == ' ' || c == '\t' || c == '\n' || c == '\r' || c == Char.ofNat 11 || c == Char.ofNat 12

/-- Word characters of the JS regex class `\w`: `[A-Za-z0-9_]`. -/
def isWordChar (c : Char) : Bool :=
  c.isAlpha || c.isDigit || c == '_'

/-- Characters of the JS regex class `[\w-]`. -/
def isWordDash (c : Char) : Bool :=
  isWordChar c || c == '-'

/-- Test whether `s` has `pre` as an initial segment. -/
def startsWithL : Str → Str → Bool
  | _, [] => true
  | [], _ :: _ => false
  | a :: as, b :: bs => a == b && startsWithL as bs

/-- Test whether `s` has `suf` as a final segment. -/
def endsWithL (s suf : Str) : Bool :=
  startsWithL s.reverse suf.reverse

/-- JS `String.prototype.trim` (ASCII whitespace). -/
def trimL (l : Str) : Str :=
  ((l.dropWhile isWsChar).reverse.dropWhile isWsChar).reverse

def containsChar (l : Str) (c : Char) : Bool :=
  l.any (· == c)

/-- JS `content.split("\n")`. -/
def splitLinesGo : Str → Str → List Str
  | [], acc => [acc.reverse]
  | c :: rest, acc =>
    if c == '\n' then acc.reverse :: splitLinesGo rest []
    else splitLinesGo rest (c :: acc)

def splitLines (l : Str) : List Str :=
  splitLinesGo l []

/-- JS `entry.split(":")`. -/
def splitColonGo : Str → Str → List Str
  | [], acc => [acc.reverse]
  | c :: rest, acc =>
    if c == ':' then acc.reverse :: splitColonGo rest []
    else splitColonGo rest (c :: acc)

def splitColon (l : Str) : List Str :=
  splitColonGo l []

/-- JS `Array.prototype.join(" ")`. -/
def joinSpace : List String → String
  | [] => ""
  | [x] => x
  | x :: xs => x ++ " " ++ joinSpace xs

def toLowerStr (s : String) : String :=
  String.mk (s.data.map Char.toLower)

/-! Path model for `path` (Node) and `vscode.Uri.joinPath`. -/

def lastSlashIdx (s : String) : Option Nat :=
  (s.data.reverse.findIdx? (· == '/')).map (fun i => s.data.length - 1 - i)

/-- Node `path.dirname` for slash-separated paths. -/
def dirname (s : String) : String :=
  match lastSlashIdx s with
  | none => "."
  | some 0 => "/"
  | some i => String.mk (s.data.take i)

/-- Node `path.basename` for slash-separated paths. -/
def basename (s : String) : String :=
  match lastSlashIdx s with
  | none => s
  | some i => String.mk (s.data.drop (i + 1))

def isAbsolutePath (s : String) : Bool :=
  startsWithL s.data ['/']

/-- Node `path.join dir name` (no dot-segment inputs are used). -/
def joinPath (d f : String) : String :=
  if endsWithL d.data ['/'] then d ++ f else d ++ "/" ++ f

/-- Node `path.resolve dir p` (dot-segment normalisation not modelled). -/
def pathResolve (d p : String) : String :=
  if isAbsolutePath p then p else joinPath d p

/-! Data model: `LocalDefinition` of `src/deepScanner.ts`.
`kind` values `variable` and `function` are Lean keywords, so the
constructors are named `var` and `func`. -/

inductive DefKind where
  | var
  | mixin
  | func
  | map
  | list
deriving DecidableEq, Repr

structure MapChild where
  key : Option String := none
  value : String
deriving DecidableEq, Repr

structure LocalDefinition where
  name : String
  value : Option String := none
  kind : DefKind
  fileUri : String
  line : Nat
  comment : Option String := none
  children : Option (List MapChild) := none
  imported : Option Bool := none
  importedFrom : Option String := none
  references : Option (List String) := none
deriving DecidableEq, Repr

/-! Configuration: defaults of `src/config.ts`.  The user glob patterns of
`getAdditionalExcludePatterns` are compiled to host regexes in the source;
that compiled test is abstracted as the function field `excludePatternTest`
(the default `fun _ => false` corresponds to relative paths that match none
of the default glob patterns, which holds for every path used below). -/

structure ScanConfig where
  excludedFolders : List String := ["node_modules", "dist", "build"]
  maxScanDepth : Nat := 30
  maxFileSize : Nat := 1048576
  interpolatedEnabled : Bool := true
  maxFilesPerBatch : Nat := 1000
  parallelEnabled : Bool := true
  maxParallelScans : Nat := 4
  excludePatternTest : String → Bool := fun _ => false

/-! `extractVariableReferences` (deepScanner.ts lines 1043-1062): the global
regexes `\$[\w-]+` and `var\(\s*--([\w-]+)\s*\)`. -/

def scssRefScan : Nat → Str → List String
  | 0, _ => []
  | _, [] => []
  | fuel + 1, c :: rest =>
    if c == '$' then
      let run := rest.takeWhile isWordDash
      if run.isEmpty then scssRefScan fuel rest
      else String.mk run :: scssRefScan fuel (rest.drop run.length)
    else scssRefScan fuel rest

def matchCssVarRef (s : Str) : Option (String × Str) :=
  if startsWithL s ['v', 'a', 'r', '('] then
    let t := (s.drop 4).dropWhile isWsChar
    if startsWithL t ['-', '-'] then
      let t2 := t.drop 2
      let run := t2.takeWhile isWordDash
      if run.isEmpty then none
      else
        match (t2.drop run.length).dropWhile isWsChar with
        | ')' :: rem => some (String.mk run, rem)
        | _ => none
    else none
  else none

def cssRefScan : Nat → Str → List String
  | 0, _ => []
  | _, [] => []
  | fuel + 1, s =>
    match s, matchCssVarRef s with
    | _, some (name, rem) => name :: cssRefScan fuel rem
    | _ :: rest, none => cssRefScan fuel rest
    | [], none => []

def extractVariableReferences (value : String) : List String :=
  scssRefScan value.data.length value.data ++ cssRefScan value.data.length value.data

/-! `extractImports` (deepScanner.ts lines 537-568). -/

def kwImport : Str := ['@', 'i', 'm', 'p', 'o', 'r', 't']

def kwUse : Str := ['@', 'u', 's', 'e']

def kwForward : Str := ['@', 'f', 'o', 'r', 'w', 'a', 'r', 'd']

/-- One quoted path with a given quote character: `'([^']+)'` or `"([^"]+)"`. -/
def parseQuoted1 (q : Char) : Str → Option (Str × Str)
  | c :: rest =>
    if c == q then
      let run := rest.takeWhile (· != q)
      if run.isEmpty then none
      else
        match rest.drop run.length with
        | c2 :: rem => if c2 == q then some (run, rem) else none
        | [] => none
    else none
  | [] => none

/-- The alternation `'([^']+)'|"([^"]+)"` tried at one position. -/
def parseQuoted (s : Str) : Option (Str × Str) :=
  match parseQuoted1 squote s with
  | some r => some r
  | none => parseQuoted1 dquote s

/-- Global scan of the inner path regex `'([^']+)'|"([^"]+)"`. -/
def quotedScan : Nat → Str → List String
  | 0, _ => []
  | _, [] => []
  | fuel + 1, s =>
    match s, parseQuoted s with
    | _, some (content, rem) => String.mk content :: quotedScan fuel rem
    | _ :: rest, none => quotedScan fuel rest
    | [], none => []

/-- Tail of the `@import` statement regex after the first quoted item:
further `(?:(?:'([^']+)'|"([^"]+)")\s*,?\s*)` iterations, then `\s*;`.
Returns the remaining input after the `;`. -/
def importItemsGo : Nat → Str → Option Str
  | 0, _ => none
  | fuel + 1, s =>
    match parseQuoted s with
    | some (_, rest) =>
      let rest := rest.dropWhile isWsChar
      let rest := match rest with
        | ',' :: r => r
        | r => r
      importItemsGo fuel (rest.dropWhile isWsChar)
    | none =>
      match s.dropWhile isWsChar with
      | ';' :: rem => some rem
      | _ => none

/-- Matches the part of `@import\s+(?:(?:'([^']+)'|"([^"]+)")\s*,?\s*)+\s*;`
after the literal `@import`; returns the remaining input after `;`. -/
def parseImportStmt (s : Str) : Option Str :=
  let w := s.takeWhile isWsChar
  if w.isEmpty then none
  else
    match parseQuoted (s.drop w.length) with
    | none => none
    | some (_, rest) =>
      let rest := rest.dropWhile isWsChar
      let rest := match rest with
        | ',' :: r => r
        | r => r
      let rest := rest.dropWhile isWsChar
      importItemsGo (rest.length + 1) rest

/-- Global scan of the `@import` statement regex; for each matched statement
the quoted paths inside the full match are collected (the source reruns the
path regex over `match[0]`). -/
def importStmtScan : Nat → Str → List String
  | 0, _ => []
  | _, [] => []
  | fuel + 1, s =>
    match s, (if startsWithL s kwImport then parseImportStmt (s.drop kwImport.length) else none) with
    | _, some remaining =>
      let stmt := s.take (s.length - remaining.length)
      quotedScan stmt.length stmt ++ importStmtScan fuel remaining
    | _ :: rest, none => importStmtScan fuel rest
    | [], none => []

/-- The `(?:@use|@forward)\s+(?:'([^']+)'|"([^"]+)")` alternation at one
position. -/
def matchModuleAt (kw : Str) (s : Str) : Option (String × Str) :=
  if startsWithL s kw then
    let t := s.drop kw.length
    let w := t.takeWhile isWsChar
    if w.isEmpty then none
    else
      match parseQuoted (t.drop w.length) with
      | some (content, rem) => some (String.mk content, rem)
      | none => none
  else none

def matchModule (s : Str) : Option (String × Str) :=
  match matchModuleAt kwUse s with
  | some r => some r
  | none => matchModuleAt kwForward s

def moduleStmtScan : Nat → Str → List String
  | 0, _ => []
  | _, [] => []
  | fuel + 1, s =>
    match s, matchModule s with
    | _, some (p, rem) => p :: moduleStmtScan fuel rem
    | _ :: rest, none => moduleStmtScan fuel rest
    | [], none => []

def extractImports (content : String) : List String :=
  importStmtScan content.data.length content.data ++
    moduleStmtScan content.data.length content.data

/-! Comment attachment (the `Check for comment above` blocks duplicated in
`extractScssVariables`, `extractMixins`, `extractFunctions`; deepScanner.ts
lines 660-682, 751-773, 809-831, 863-885). -/

/-- The collection loop `while (j >= 0 && !lines[j].trim().startsWith("/*"))`,
gathering the `*`-prefixed lines top-down (the source unshifts while walking
upward). -/
def blockStop (lines : List Str) (j : Nat) : Bool :=
  startsWithL (trimL ((lines.get? j).getD [])) ['/', '*']

def blockLineVal (lines : List Str) (j : Nat) : List String :=
  let t := trimL ((lines.get? j).getD [])
  if startsWithL t ['*'] then [String.mk (trimL (t.drop 1))] else []

def blockCollect (lines : List Str) : Nat → List String
  | 0 => if blockStop lines 0 then [] else blockLineVal lines 0
  | j + 1 =>
    if blockStop lines (j + 1) then []
    else blockCollect lines j ++ blockLineVal lines (j + 1)

def commentAbove (lines : List Str) (i : Nat) : Option String :=
  if i = 0 then none
  else
    let prev := trimL ((lines.get? (i - 1)).getD [])
    if startsWithL prev ['/', '/'] then some (String.mk (trimL (prev.drop 2)))
    else if decide (1 < i) && prev == ['*', '/'] &&
        startsWithL (trimL ((lines.get? (i - 2)).getD [])) ['/', '*'] then
      some (joinSpace (blockCollect lines (i - 2)))
    else none

/-! `extractScssVariables` (deepScanner.ts lines 644-794). -/

/-- The anchored regex `^\s*(\$[\w-]+)\s*:\s*([^;(]*(?:\([^)]*\)[^;]*)?);`
(match from position 0); returns `(match[0], name run)`. -/
def matchScssVarLine (l : Str) : Option (Str × Str) :=
  match l.dropWhile isWsChar with
  | '$' :: t1 =>
    let nm := t1.takeWhile isWordDash
    if nm.isEmpty then none
    else
      match (t1.drop nm.length).dropWhile isWsChar with
      | ':' :: t3 =>
        let t4 := t3.dropWhile isWsChar
        let p1 := t4.takeWhile (fun c => c != ';' && c != '(')
        match t4.drop p1.length with
        | ';' :: t6 => some (l.take (l.length - t6.length), nm)
        | '(' :: t6 =>
          let inner := t6.takeWhile (· != ')')
          match t6.drop inner.length with
          | ')' :: t7 =>
            let p2 := t7.takeWhile (· != ';')
            match t7.drop p2.length with
            | ';' :: t8 => some (l.take (l.length - t8.length), nm)
            | _ => none
          | _ => none
        | _ => none
      | _ => none
  | _ => none

/-- The regex `^\s*(\$[\w-]+)\s*:\s*(.*?)(?:;|$)`; returns the name run with
its `$` sigil (as `match[1]` keeps it) and the lazily matched value group. -/
def matchMultilineStart (l : Str) : Option (Str × Str) :=
  match l.dropWhile isWsChar with
  | '$' :: t1 =>
    let nm := t1.takeWhile isWordDash
    if nm.isEmpty then none
    else
      match (t1.drop nm.length).dropWhile isWsChar with
      | ':' :: t3 =>
        let t4 := t3.dropWhile isWsChar
        some ('$' :: nm, t4.takeWhile (· != ';'))
      | _ => none
  | _ => none

/-- One backtracking attempt of `^\s*([^$@].*?);` with the group starting at
index `k`. -/
def mlEndTry (l : Str) (k : Nat) : Option Str :=
  match l.drop k with
  | c :: rest =>
    if c != '$' && c != '@' then
      let p := rest.takeWhile (· != ';')
      match rest.drop p.length with
      | ';' :: _ => some (c :: p)
      | _ => none
    else none
  | [] => none

def mlEndGo (l : Str) : Nat → Option Str
  | 0 => mlEndTry l 0
  | k + 1 =>
    match mlEndTry l (k + 1) with
    | some r => some r
    | none => mlEndGo l k

/-- The regex `^\s*([^$@].*?);`: the greedy `\s*` run is given back one
character at a time, so the group may start at any index from the length of
the leading whitespace run down to 0; returns `match[1]`. -/
def matchMultilineEnd (l : Str) : Option Str :=
  mlEndGo l (l.takeWhile isWsChar).length

structure MlVar where
  name : Str
  value : Str
  line : Nat

/-- Main loop of `extractScssVariables` over the lines, with the multi-line
variable accumulator. -/
def scssVarsLoop (lines : List Str) (uri : String) : Nat → Nat → Option MlVar → List LocalDefinition
  | 0, _, _ => []
  | fuel + 1, i, ml =>
    match lines.get? i with
    | none => []
    | some line =>
      let comment := commentAbove lines i
      match ml with
      | some mv =>
        match matchMultilineEnd line with
        | some g1 =>
          let value := mv.value ++ (' ' :: trimL g1)
          let refs := extractVariableReferences (String.mk value)
          { name := String.mk (mv.name.drop 1),
            value := some ("$" ++ String.mk mv.name ++ ": " ++ String.mk value),
            kind := DefKind.var, fileUri := uri, line := mv.line,
            comment := comment, references := some refs } ::
            scssVarsLoop lines uri fuel (i + 1) none
        | none =>
          if startsWithL (trimL line) ['/', '/'] then
            scssVarsLoop lines uri fuel (i + 1) (some mv)
          else
            scssVarsLoop lines uri fuel (i + 1)
              (some { mv with value := mv.value ++ (' ' :: trimL line) })
      | none =>
        match
          (match matchMultilineStart line with
           | some (nm, v) =>
             if containsChar line ';' then none
             else some { name := nm, value := trimL v, line := i : MlVar }
           | none => none) with
        | some mv' => scssVarsLoop lines uri fuel (i + 1) (some mv')
        | none =>
          match matchScssVarLine line with
          | some (m0, nm) =>
            let value := String.mk (trimL m0)
            { name := String.mk nm, value := some value, kind := DefKind.var,
              fileUri := uri, line := i, comment := comment,
              references := some (extractVariableReferences value) } ::
              scssVarsLoop lines uri fuel (i + 1) none
          | none => scssVarsLoop lines uri fuel (i + 1) none

/-- The anchored regex `^\s*(--[\w-]+)\s*:\s*([^;]*);`; returns
`(match[0], name run)`. -/
def matchCssVarLine (l : Str) : Option (Str × Str) :=
  match l.dropWhile isWsChar with
  | '-' :: '-' :: t1 =>
    let nm := t1.takeWhile isWordDash
    if nm.isEmpty then none
    else
      match (t1.drop nm.length).dropWhile isWsChar with
      | ':' :: t3 =>
        let p := t3.takeWhile (· != ';')
        match t3.drop p.length with
        | ';' :: t4 => some (l.take (l.length - t4.length), nm)
        | _ => none
      | _ => none
  | _ => none

/-- Second loop of `extractScssVariables`: CSS custom properties. -/
def cssVarsLoop (lines : List Str) (uri : String) : Nat → Nat → List LocalDefinition
  | 0, _ => []
  | fuel + 1, i =>
    match lines.get? i with
    | none => []
    | some line =>
      let comment := commentAbove lines i
      match matchCssVarLine line with
      | some (m0, nm) =>
        let value := String.mk (trimL m0)
        { name := String.mk nm, value := some value, kind := DefKind.var,
          fileUri := uri, line := i, comment := comment,
          references := some (extractVariableReferences value) } ::
          cssVarsLoop lines uri fuel (i + 1)
      | none => cssVarsLoop lines uri fuel (i + 1)

def extractScssVariables (content : String) (uri : String) : List LocalDefinition :=
  let lines := splitLines content.data
  scssVarsLoop lines uri (lines.length + 1) 0 none ++
    cssVarsLoop lines uri (lines.length + 1) 0

/-! `extractMixins` / `extractFunctions` (deepScanner.ts lines 802-848 and
856-902): the regexes `^\s*@mixin\s+([\w-]+)(?:\(([^)]*)\))?\s*{` and
`^\s*@function\s+([\w-]+)(?:\(([^)]*)\))?\s*{`. -/

def kwMixin : Str := ['@', 'm', 'i', 'x', 'i', 'n']

def kwFunction : Str := ['@', 'f', 'u', 'n', 'c', 't', 'i', 'o', 'n']

def matchAtRuleLine (kw : Str) (l : Str) : Option (Str × Str) :=
  let t0 := l.dropWhile isWsChar
  if startsWithL t0 kw then
    let t1 := t0.drop kw.length
    let w := t1.takeWhile isWsChar
    if w.isEmpty then none
    else
      let t2 := t1.drop w.length
      let nm := t2.takeWhile isWordDash
      if nm.isEmpty then none
      else
        match t2.drop nm.length with
        | '(' :: t4 =>
          let ps := t4.takeWhile (· != ')')
          match t4.drop ps.length with
          | ')' :: t5 =>
            if startsWithL (t5.dropWhile isWsChar) [lbrace] then some (nm, ps) else none
          | _ => none
        | t3 =>
          if startsWithL (t3.dropWhile isWsChar) [lbrace] then some (nm, []) else none
  else none

def mixinsLoop (lines : List Str) (uri : String) : Nat → Nat → List LocalDefinition
  | 0, _ => []
  | fuel + 1, i =>
    match lines.get? i with
    | none => []
    | some line =>
      let comment := commentAbove lines i
      match matchAtRuleLine kwMixin line with
      | some (nm, ps) =>
        { name := String.mk nm,
          value := some ("@mixin " ++ String.mk nm ++ "(" ++ String.mk ps ++ ") \x7b ... \x7d"),
          kind := DefKind.mixin, fileUri := uri, line := i, comment := comment } ::
          mixinsLoop lines uri fuel (i + 1)
      | none => mixinsLoop lines uri fuel (i + 1)

def extractMixins (content : String) (uri : String) : List LocalDefinition :=
  let lines := splitLines content.data
  mixinsLoop lines uri (lines.length + 1) 0

def functionsLoop (lines : List Str) (uri : String) : Nat → Nat → List LocalDefinition
  | 0, _ => []
  | fuel + 1, i =>
    match lines.get? i with
    | none => []
    | some line =>
      let comment := commentAbove lines i
      match matchAtRuleLine kwFunction line with
      | some (nm, ps) =>
        { name := String.mk nm,
          value := some ("@function " ++ String.mk nm ++ "(" ++ String.mk ps ++ ") \x7b ... \x7d"),
          kind := DefKind.func, fileUri := uri, line := i, comment := comment } ::
          functionsLoop lines uri fuel (i + 1)
      | none => functionsLoop lines uri fuel (i + 1)

def extractFunctions (content : String) (uri : String) : List LocalDefinition :=
  let lines := splitLines content.data
  functionsLoop lines uri (lines.length + 1) 0

/-! `extractComplexTypes` (deepScanner.ts lines 910-1035) with
`splitMapEntries` / `splitListItems` (lines 1070-1132). -/

/-- Comma split at paren depth zero; intermediate empty segments are pushed
as `""`, a trailing all-whitespace segment is dropped (the source's final
`if (current.trim())`).  The paren level may go negative, so it is an `Int`
as in the JS number semantics. -/
def splitEntriesGo : Str → Str → Int → List String
  | [], cur, _ =>
    let t := trimL cur
    if t.isEmpty then [] else [String.mk t]
  | c :: rest, cur, lvl =>
    if c == '(' then splitEntriesGo rest (cur ++ [c]) (lvl + 1)
    else if c == ')' then splitEntriesGo rest (cur ++ [c]) (lvl - 1)
    else if c == ',' && lvl == 0 then String.mk (trimL cur) :: splitEntriesGo rest [] lvl
    else splitEntriesGo rest (cur ++ [c]) lvl

def splitMapEntries (s : String) : List String :=
  splitEntriesGo s.data [] 0

def splitListItems (s : String) : List String :=
  splitEntriesGo s.data [] 0

/-- One backtracking attempt of the tail of
`^\s*(\$[\w-]+)\s*:\s*\((.*)\)\s*;` with the closing paren at index `k` of
the text after `(`: the remainder must be `\s*;` (with arbitrary trailing
text). -/
def inlineTryAt (t : Str) (k : Nat) : Option Str :=
  match t.drop k with
  | ')' :: rest =>
    match rest.dropWhile isWsChar with
    | ';' :: _ => some (t.take k)
    | _ => none
  | _ => none

def inlineGo (t : Str) : Nat → Option Str
  | 0 => inlineTryAt t 0
  | k + 1 =>
    match inlineTryAt t (k + 1) with
    | some r => some r
    | none => inlineGo t k

/-- The greedy group `(.*)` of the inline map regex: the rightmost closing
paren whose remainder matches `\s*;`. -/
def inlineMapTail (t : Str) : Option Str :=
  if t.isEmpty then none else inlineGo t (t.length - 1)

/-- The regex `^\s*(\$[\w-]+)\s*:\s*\((.*)\)\s*;`; returns
`(name run, match[2])`. -/
def matchInlineMap (l : Str) : Option (Str × Str) :=
  match l.dropWhile isWsChar with
  | '$' :: t1 =>
    let nm := t1.takeWhile isWordDash
    if nm.isEmpty then none
    else
      match (t1.drop nm.length).dropWhile isWsChar with
      | ':' :: t3 =>
        match t3.dropWhile isWsChar with
        | '(' :: t5 =>
          match inlineMapTail t5 with
          | some g2 => some (nm, g2)
          | none => none
        | _ => none
      | _ => none
  | _ => none

/-- The regex `^\s*(\$[\w-]+)\s*:\s*\(\s*$`; returns the name run. -/
def matchMapStart (l : Str) : Option Str :=
  match l.dropWhile isWsChar with
  | '$' :: t1 =>
    let nm := t1.takeWhile isWordDash
    if nm.isEmpty then none
    else
      match (t1.drop nm.length).dropWhile isWsChar with
      | ':' :: t3 =>
        match t3.dropWhile isWsChar with
        | '(' :: t5 => if (t5.dropWhile isWsChar).isEmpty then some nm else none
        | _ => none
      | _ => none
  | _ => none

/-- The per-line regex `^\s*([\w-]+)\s*:\s*([^,]*)(?:,|$)` of the multi-line
map reader. -/
def matchKeyValue (ml : Str) : Option (Str × Str) :=
  let t := ml.dropWhile isWsChar
  let k := t.takeWhile isWordDash
  if k.isEmpty then none
  else
    match (t.drop k.length).dropWhile isWsChar with
    | ':' :: t3 =>
      let t4 := t3.dropWhile isWsChar
      some (k, t4.takeWhile (· != ','))
    | _ => none

/-- The per-line regex `^\s*([^,]*)(?:,|$)` (always matches). -/
def matchListItem (ml : Str) : Str :=
  (ml.dropWhile isWsChar).takeWhile (· != ',')

/-- The `while (currentLine < lines.length)` reader of a multi-line map/list
body.  Returns `(children, isMap, rawValue, currentLine at exit)`. -/
def mapBlockGo (lines : List Str) : Nat → Nat → List MapChild → Bool → Str → (List MapChild × Bool × Str × Nat)
  | 0, cl, ch, im, raw => (ch, im, raw, cl)
  | fuel + 1, cl, ch, im, raw =>
    match lines.get? cl with
    | none => (ch, im, raw, cl)
    | some l =>
      let ml := trimL l
      let raw := raw ++ ('\n' :: ml)
      if ml == [')', ';'] then (ch, im, raw, cl)
      else if containsChar ml ':' then
        let ch := match matchKeyValue ml with
          | some (k, v) =>
            ch ++ [{ key := some (String.mk (trimL k)), value := String.mk (trimL v) }]
          | none => ch
        mapBlockGo lines fuel (cl + 1) ch true raw
      else if !ml.isEmpty && !startsWithL ml ['/', '/'] then
        let ch := ch ++ [{ key := none, value := String.mk (trimL (matchListItem ml)) : MapChild }]
        mapBlockGo lines fuel (cl + 1) ch im raw
      else mapBlockGo lines fuel (cl + 1) ch im raw

/-- Children of an inline map/list definition. -/
def inlineChildren (isMap : Bool) (value : String) : List MapChild :=
  if isMap then
    (splitMapEntries value).foldl (fun ch entry =>
      match splitColon entry.data with
      | [p0, p1] => ch ++ [{ key := some (String.mk (trimL p0)), value := String.mk (trimL p1) }]
      | _ => ch) []
  else
    (splitListItems value).foldl (fun ch item =>
      ch ++ [{ key := none, value := String.mk (trimL item.data) : MapChild }]) []

def complexLoop (lines : List Str) (uri : String) : Nat → Nat → List LocalDefinition
  | 0, _ => []
  | fuel + 1, i =>
    match lines.get? i with
    | none => []
    | some line =>
      match matchInlineMap line with
      | some (nm, g2) =>
        let value := String.mk (trimL g2)
        let isMap := containsChar value.data ':'
        { name := String.mk nm, value := some (String.mk (trimL line)),
          kind := if isMap then DefKind.map else DefKind.list,
          fileUri := uri, line := i, children := some (inlineChildren isMap value) } ::
          complexLoop lines uri fuel (i + 1)
      | none =>
        match matchMapStart line with
        | some nm =>
          let r := mapBlockGo lines (lines.length + 1) (i + 1) [] false (trimL line)
          { name := String.mk nm, value := some (String.mk r.2.2.1),
            kind := if r.2.1 then DefKind.map else DefKind.list,
            fileUri := uri, line := i, children := some r.1 } ::
            complexLoop lines uri fuel (r.2.2.2 + 1)
        | none => complexLoop lines uri fuel (i + 1)

def extractComplexTypes (content : String) (uri : String) : List LocalDefinition :=
  let lines := splitLines content.data
  complexLoop lines uri (lines.length + 1) 0

/-! `extractInterpolatedVariables` (deepScanner.ts lines 602-636): the
regex `#{(\$[\w-]+)}`, with the existence check against the mutable
definition list threaded explicitly. -/

def matchInterp (s : Str) : Option (String × Str) :=
  match s with
  | '#' :: c :: t1 =>
    if c == lbrace then
      match t1 with
      | '$' :: t2 =>
        let run := t2.takeWhile isWordDash
        if run.isEmpty then none
        else
          match t2.drop run.length with
          | c2 :: rem => if c2 == rbrace then some (String.mk run, rem) else none
          | [] => none
      | _ => none
    else none
  | _ => none

def interpLineScan : Nat → Str → List String
  | 0, _ => []
  | _, [] => []
  | fuel + 1, s =>
    match s, matchInterp s with
    | _, some (nm, rem) => nm :: interpLineScan fuel rem
    | _ :: rest, none => interpLineScan fuel rest
    | [], none => []

def interpAddVars (uri : String) (lineIdx : Nat) (names : List String)
    (defs : List LocalDefinition) : List LocalDefinition :=
  names.foldl (fun defs nm =>
    if defs.any (fun d => d.name == nm &&
        (d.kind == DefKind.var || d.kind == DefKind.map || d.kind == DefKind.list)) then defs
    else
      defs ++ [{ name := nm, value := some ("Interpolated as #\x7b$" ++ nm ++ "\x7d"),
                 kind := DefKind.var, fileUri := uri, line := lineIdx,
                 comment := some "Used in string interpolation" }]) defs

def extractInterpolatedVariables (content : String) (uri : String)
    (defs : List LocalDefinition) : List LocalDefinition :=
  ((splitLines content.data).enum).foldl (fun defs il =>
    interpAddVars uri il.1 (interpLineScan il.2.length il.2) defs) defs

/-- `extractVariables` (deepScanner.ts lines 576-593): appends the
extracted definitions of one file to the definition list, in source order
(variables, mixins, functions, complex types, then interpolated variables
when enabled). -/
def extractVariables (cfg : ScanConfig) (content : String) (uri : String)
    (defs : List LocalDefinition) : List LocalDefinition :=
  let defs := defs ++ extractScssVariables content uri
  let defs := defs ++ extractMixins content uri
  let defs := defs ++ extractFunctions content uri
  let defs := defs ++ extractComplexTypes content uri
  if cfg.interpolatedEnabled then extractInterpolatedVariables content uri defs else defs

/-! Scanner state machine (`DeepScanner`'s mutable fields and the methods
`scanFile`, `findImportingFiles`, `scanSingleFileAndDependents`,
`scanWorkspace`, `findScssFiles`, `chunkArray`). -/

/-- The file system: path to file content.  `fs.existsSync` is modelled as
content membership (directories are not distinguishable targets here; no
scenario below imports a directory path). -/
def FileSys : Type := String → Option String

def fsExists (fs : FileSys) (p : String) : Bool :=
  (fs p).isSome

/-- Mutable state of a `DeepScanner` instance: `localDefinitions`,
`importCache` (insertion-ordered, as a JS `Map`), `processedFiles`,
`scanInProgress`. -/
structure ScannerState where
  localDefinitions : List LocalDefinition := []
  importCache : List (String × List String) := []
  processedFiles : List String := []
  scanInProgress : Bool := false
deriving DecidableEq, Repr

/-- `Map.set`: update in place if present (keeping insertion order),
otherwise append. -/
def cacheSet (cache : List (String × List String)) (k : String) (v : List String) :
    List (String × List String) :=
  if cache.any (fun e => e.1 == k) then
    cache.map (fun e => if e.1 == k then (k, v) else e)
  else cache ++ [(k, v)]

def cacheLookup (cache : List (String × List String)) (k : String) : Option (List String) :=
  (cache.find? (fun e => e.1 == k)).map (·.2)

def extScss : Str := ['.', 's', 'c', 's', 's']

def extCss : Str := ['.', 'c', 's', 's']

def partialName (r : String) : String :=
  joinPath (dirname r) ("_" ++ basename r)

/-- Import resolution of `scanFile` (deepScanner.ts lines 490-521):
directory-relative resolution, `.scss` extension fallback when the path has
neither stylesheet extension and does not exist, then the underscore
partial-file fallback; `some` exactly when the final candidate exists. -/
def resolveImport (fs : FileSys) (fromFile importPath : String) : Option String :=
  let r0 := if isAbsolutePath importPath then importPath
            else pathResolve (dirname fromFile) importPath
  let r1 := if !endsWithL r0.data extScss && !endsWithL r0.data extCss && !fsExists fs r0
            then r0 ++ ".scss" else r0
  let r2 := if !fsExists fs r1 then
              if fsExists fs (partialName r1) then partialName r1 else r1
            else r1
  if fsExists fs r2 then some r2 else none

/-- `scanFile` (deepScanner.ts lines 467-529).  The cycle guard is the
`processedFiles` set on lower-cased paths; recursion into resolved imports
is bounded by fuel (the source is bounded by the growth of the set).
A read failure (`fs uri = none`) is caught and the method returns, as in the
source.  Note that the definitions of the file are appended without any
prior removal, and that `trackImports` only gates the import-cache update,
not the recursive expansion of imports. -/
def scanFile (fs : FileSys) (cfg : ScanConfig) : Nat → String → Bool → ScannerState → ScannerState
  | 0, _, _, s => s
  | fuel + 1, uri, trackImports, s =>
    let np := toLowerStr uri
    if s.processedFiles.any (· == np) then s
    else
      let s := { s with processedFiles := np :: s.processedFiles }
      match fs uri with
      | none => s
      | some content =>
        let imports := extractImports content
        let s := if trackImports then { s with importCache := cacheSet s.importCache uri imports } else s
        let s := imports.foldl (fun st ip =>
          match resolveImport fs uri ip with
          | some target => scanFile fs cfg fuel target trackImports st
          | none => st) s
        { s with localDefinitions := extractVariables cfg content uri s.localDefinitions }

/-- `findImportingFiles` (deepScanner.ts lines 191-208): files whose cached
raw import list contains a path whose plain `path.resolve` against
the importer's directory equals the queried path (no extension or partial-file
fallback here). -/
def findImportingFiles (cache : List (String × List String)) (uri : String) : List String :=
  cache.foldl (fun acc e =>
    if e.2.any (fun ip => pathResolve (dirname e.1) ip == uri) then acc ++ [e.1] else acc) []

/-- `scanSingleFileAndDependents` (deepScanner.ts lines 214-249): clear the
changed file's definitions, rescan it with import tracking off, then clear
and rescan each cached importer, resetting the processed set before each
scan. -/
def scanSingleFileAndDependents (fs : FileSys) (cfg : ScanConfig) (fuel : Nat)
    (uri : String) (s : ScannerState) : ScannerState :=
  let s := { s with scanInProgress := true }
  let s := { s with localDefinitions := s.localDefinitions.filter (fun d => d.fileUri != uri) }
  let s := { s with processedFiles := [] }
  let s := scanFile fs cfg fuel uri false s
  let importers := findImportingFiles s.importCache uri
  let s := importers.foldl (fun st imp =>
    let st := { st with localDefinitions := st.localDefinitions.filter (fun d => d.fileUri != imp) }
    let st := { st with processedFiles := [] }
    scanFile fs cfg fuel imp false st) s
  { s with scanInProgress := false }

/-! File discovery: `findScssFiles` (deepScanner.ts lines 369-451) over a
pure directory tree, and `chunkArray` (lines 453-459). -/

inductive FsNode where
  | file (size : Nat)
  | dir (entries : List (String × FsNode))

def chunkGo {α : Type} : Nat → List α → Nat → List (List α)
  | 0, _, _ => []
  | _, [], _ => []
  | fuel + 1, l, size => l.take size :: chunkGo fuel (l.drop size) size

/-- `chunkArray` (the source would not terminate for `size = 0`; it is never
called with 0). -/
def chunkArray {α : Type} (l : List α) (size : Nat) : List (List α) :=
  if size = 0 then [] else chunkGo l.length l size

def joinRel (rel name : String) : String :=
  if rel.data.isEmpty then name else rel ++ "/" ++ name

/-- `findScssFiles`: depth cut-off (`currentDepth > maxDepth`), the
per-file size limit, excluded directory names, the additional exclude
pattern test on the workspace-relative path, and the stylesheet extension
filter.  The parallel mode chunks sibling entries but produces the same
concatenation order as the sequential walk. -/
def findScssFiles (cfg : ScanConfig) : Nat → FsNode → String → String → Nat → List String
  | 0, _, _, _, _ => []
  | fuel + 1, node, p, rel, depth =>
    if cfg.maxScanDepth < depth then []
    else
      match node with
      | FsNode.file size =>
        if cfg.maxFileSize < size then []
        else if endsWithL p.data extScss || endsWithL p.data extCss then [p]
        else []
      | FsNode.dir entries =>
        if cfg.excludedFolders.any (· == basename p) then []
        else if cfg.excludePatternTest rel then []
        else
          let step := fun (acc : List String) (e : String × FsNode) =>
            acc ++ findScssFiles cfg fuel e.2 (joinPath p e.1) (joinRel rel e.1) (depth + 1)
          if cfg.parallelEnabled then
            (chunkArray entries cfg.maxParallelScans).foldl (fun acc chunk => chunk.foldl step acc) []
          else entries.foldl step []

/-! `scanWorkspace` (deepScanner.ts lines 276-360): discovery over the
workspace folders, batching by `maxFilesPerBatch`, the per-batch
cancellation check, and per-file `scanFile` with import tracking on.
Progress reporting and the inter-batch delay have no effect on the scanner
state and are omitted.  Note that neither `localDefinitions` nor
`processedFiles` is reset anywhere in this method. -/

def scanBatches (fs : FileSys) (cfg : ScanConfig) (fuel : Nat) (cancel : Nat → Bool) :
    Nat → List (List String) → ScannerState → ScannerState
  | _, [], s => s
  | bi, batch :: rest, s =>
    if cancel bi then s
    else
      let s := if cfg.parallelEnabled then
          (chunkArray batch cfg.maxParallelScans).foldl (fun st chunk =>
            chunk.foldl (fun st f => scanFile fs cfg fuel f true st) st) s
        else batch.foldl (fun st f => scanFile fs cfg fuel f true st) s
      scanBatches fs cfg fuel cancel (bi + 1) rest s

def scanWorkspace (roots : List (String × FsNode)) (fs : FileSys) (cfg : ScanConfig)
    (dfuel sfuel : Nat) (cancel : Nat → Bool) (s : ScannerState) : ScannerState :=
  let s := { s with scanInProgress := true }
  let files := roots.foldl (fun acc r => acc ++ findScssFiles cfg dfuel r.2 r.1 "" 0) []
  let s := scanBatches fs cfg sfuel cancel 0 (chunkArray files cfg.maxFilesPerBatch) s
  { s with scanInProgress := false }

/-! Debounce model of `onFileChanged` (deepScanner.ts lines 126-158) for a
sequence of change events for one non-excluded file, at strictly increasing
times: each event clears a still-pending timeout and schedules the scan of
the file at its own time plus the debounce interval `d`; a scheduled scan
runs exactly when no further event arrives before its deadline (once the
timeout has fired, `debounceTimeout` is `null` and a later event has nothing
to clear).  `debounceScans d events` is the list of times at which a scan of
the file actually runs. -/
def debounceScans (d : Nat) : List Nat → List Nat
  | [] => []
  | [t] => [t + d]
  | t :: t' :: rest =>
    if t + d ≤ t' then (t + d) :: debounceScans d (t' :: rest)
    else debounceScans d (t' :: rest)

/-! Concrete scenarios used by the theorems. -/

def cfgT : ScanConfig := {}

/-- Configuration with parallel scanning disabled: the sequential branches of
`scanWorkspace` and `findScssFiles` are then exactly the single-threaded
execution order, with no modelling question about interleaved async reads. -/
def cfgSeq : ScanConfig := { parallelEnabled := false }

def noCancel : Nat → Bool := fun _ => false

def emptyScanner : ScannerState := {}

def uriF : String := "/w/f.scss"

def fPath : String := "/w/f.scss"

def gPath : String := "/w/g.scss"

def dPath : String := "/w/d.scss"

def hPath : String := "/w/h.scss"

def aPath : String := "/w/a.scss"

def bPath : String := "/w/b.scss"

/-! Scenario for C1: `f` imports `g`. -/

def fsC1 : FileSys := fun p =>
  if p == fPath then some ("@import \"g.scss\";\n$a: 1;")
  else if p == gPath then some ("$b: 2;")
  else none

def aDefC1 : LocalDefinition :=
  { name := "a", value := some ("$a: 1;"), kind := DefKind.var,
    fileUri := fPath, line := 1, references := some ["a"] }

def bDefC1 : LocalDefinition :=
  { name := "b", value := some ("$b: 2;"), kind := DefKind.var,
    fileUri := gPath, line := 0, references := some ["b"] }

/-! Scenario for C2: one workspace file whose content changes between two
full scans. -/

def treeC2 : FsNode := FsNode.dir [("f.scss", FsNode.file 10)]

def fsC2a : FileSys := fun p => if p == fPath then some ("$a: 1;") else none

def fsC2b : FileSys := fun p => if p == fPath then some ("$a: 2;") else none

def aDefC2a : LocalDefinition :=
  { name := "a", value := some ("$a: 1;"), kind := DefKind.var,
    fileUri := fPath, line := 0, references := some ["a"] }

def aDefC2b : LocalDefinition :=
  { name := "a", value := some ("$a: 2;"), kind := DefKind.var,
    fileUri := fPath, line := 0, references := some ["a"] }

def c2first : ScannerState :=
  scanWorkspace [("/w", treeC2)] fsC2a cfgSeq 3 3 noCancel emptyScanner

def c2second : ScannerState :=
  scanWorkspace [("/w", treeC2)] fsC2b cfgSeq 3 3 noCancel c2first

def c2fresh : ScannerState :=
  scanWorkspace [("/w", treeC2)] fsC2b cfgSeq 3 3 noCancel emptyScanner

/-! Scenario for C3: `d` imports `f` and `h`; `f` changes. -/

def fsC3 : FileSys := fun p =>
  if p == dPath then some ("@import \"f.scss\";\n@import \"h.scss\";\n$c: 3;")
  else if p == fPath then some ("$a: 1;")
  else if p == hPath then some ("$b: 2;")
  else none

def treeC3 : FsNode :=
  FsNode.dir [("d.scss", FsNode.file 1), ("f.scss", FsNode.file 1), ("h.scss", FsNode.file 1)]

def aDefC3 : LocalDefinition :=
  { name := "a", value := some ("$a: 1;"), kind := DefKind.var,
    fileUri := fPath, line := 0, references := some ["a"] }

def bDefC3 : LocalDefinition :=
  { name := "b", value := some ("$b: 2;"), kind := DefKind.var,
    fileUri := hPath, line := 0, references := some ["b"] }

def cDefC3 : LocalDefinition :=
  { name := "c", value := some ("$c: 3;"), kind := DefKind.var,
    fileUri := dPath, line := 2, references := some ["c"] }

def stC3 : ScannerState :=
  scanWorkspace [("/w", treeC3)] fsC3 cfgSeq 3 4 noCancel emptyScanner

def finC3 : ScannerState :=
  scanSingleFileAndDependents fsC3 cfgSeq 4 fPath stC3

/-! Scenario for C4 (spec Scenario A). -/

def c4content : String := "$color-a: #fff;\n$color-b: $color-a;"

def c4defs : List LocalDefinition := extractVariables cfgT c4content uriF []

def c4def0 : LocalDefinition :=
  { name := "color-a", value := some ("$color-a: #fff;"), kind := DefKind.var,
    fileUri := uriF, line := 0, references := some ["color-a"] }

def c4def1 : LocalDefinition :=
  { name := "color-b", value := some ("$color-b: $color-a;"), kind := DefKind.var,
    fileUri := uriF, line := 1, references := some ["color-b", "color-a"] }

/-! Scenarios for C5: an unresolvable import alone, and together with a
resolvable one. -/

def fsC5a : FileSys := fun p =>
  if p == fPath then some ("@import \"nothing\";") else none

def fsC5b : FileSys := fun p =>
  if p == fPath then some ("@import \"nothing\";\n@import \"g.scss\";")
  else if p == gPath then some ("$b: 2;")
  else none

def bDefC5 : LocalDefinition :=
  { name := "b", value := some ("$b: 2;"), kind := DefKind.var,
    fileUri := gPath, line := 0, references := some ["b"] }

/-! Scenario for C6: the mutual-import cycle `a ↔ b`. -/

def fsC6 : FileSys := fun p =>
  if p == aPath then some ("@import \"b.scss\";\n$x: 1;")
  else if p == bPath then some ("@import \"a.scss\";\n$y: 2;")
  else none

def treeC6 : FsNode := FsNode.dir [("a.scss", FsNode.file 1), ("b.scss", FsNode.file 1)]

def xDefC6 : LocalDefinition :=
  { name := "x", value := some ("$x: 1;"), kind := DefKind.var,
    fileUri := aPath, line := 1, references := some ["x"] }

def yDefC6 : LocalDefinition :=
  { name := "y", value := some ("$y: 2;"), kind := DefKind.var,
    fileUri := bPath, line := 1, references := some ["y"] }

/-! Scenario for the C8 witness: `main.scss` imports `"vars"`, present only
as the partial file `_vars.scss`. -/

def fsW : FileSys := fun p =>
  if p == "/w/_vars.scss" then some ("$v: 1;")
  else if p == "/w/main.scss" then some ("@import \"vars\";")
  else none

/-! Scenario for C9: a directory chain 31 levels deep with one stylesheet
file at the bottom (the file itself is at depth 32). -/

def deepChain : Nat → FsNode
  | 0 => FsNode.dir [("x.scss", FsNode.file 1)]
  | n + 1 => FsNode.dir [("d", deepChain n)]

/-! Scenario for C10: a three-line block comment directly above a variable,
and the two-line degenerate form. -/

def c10content : String := "\x2f*\n * The primary color\n *\x2f\n$color-primary: #fff;"

def c10short : String := "\x2f* note\n*\x2f\n$x: 1;"

def cpDefC10 : LocalDefinition :=
  { name := "color-primary", value := some ("$color-primary: #fff;"), kind := DefKind.var,
    fileUri := uriF, line := 3, comment := none, references := some ["color-primary"] }

def xDefC10 : LocalDefinition :=
  { name := "x", value := some ("$x: 1;"), kind := DefKind.var,
    fileUri := uriF, line := 2, comment := some (""), references := some ["x"] }

/-! Claim theorems. -/

/-- Claim C1: the incremental per-file rescan removes the changed file's own
stale definitions, but the recursive import expansion inside `scanFile`
appends the imported files' definitions without removing their old copies.
With `f` importing `g`, one incremental scan of `f` from the empty state
yields `g`'s and `f`'s definitions once each, while a second identical scan
leaves `g`'s definition twice: the operation is not idempotent and repeated
rescans accumulate duplicate definitions, contradicting the claim. -/
theorem C1_incremental_rescan_accumulates_duplicates :
    (scanSingleFileAndDependents fsC1 cfgT 3 fPath emptyScanner).localDefinitions
      = [bDefC1, aDefC1] ∧
    (scanSingleFileAndDependents fsC1 cfgT 3 fPath
      (scanSingleFileAndDependents fsC1 cfgT 3 fPath emptyScanner)).localDefinitions
      = [bDefC1, bDefC1, aDefC1] := by
  decide

/-- Claim C2: `scanWorkspace` never clears `processedFiles`, so a second
full workspace scan skips every file the first one processed.  After a first
full scan, rescanning the same workspace whose single file now has new
content leaves the old definition in place, while a scan from a fresh state
re-indexes the file and sees the new content. -/
theorem C2_second_full_scan_skips_processed_files :
    c2first.localDefinitions = [aDefC2a] ∧
    c2second.localDefinitions = [aDefC2a] ∧
    c2fresh.localDefinitions = [aDefC2b] ∧
    c2second.localDefinitions ≠ c2fresh.localDefinitions := by
  decide

/-- Counterexample to claim C3: with `d` importing `f` and `h`, the
incremental scan triggered by a change to `f` has `d` as the only direct
dependent, yet after it `h`'s definition — a file that is neither `f` nor a
dependent of `f` — has been re-parsed and re-inserted: its index count goes
from 1 to 2, because the rescan of `d` recursively expands `d`'s imports. -/
theorem C3_dependent_rescan_reexpands_imports :
    findImportingFiles stC3.importCache fPath = [dPath] ∧
    stC3.localDefinitions.countP (fun d => d.fileUri == hPath) = 1 ∧
    finC3.localDefinitions.countP (fun d => d.fileUri == hPath) = 2 := by
  decide

/-- Amended claim C3: the rescan of a dependent `d` clears only `d`'s own
definitions before rescanning, but `scanFile` still recursively expands
`d`'s imports (the `trackImports = false` flag only suppresses import-cache
updates), so the changed file and every file transitively imported by a
dependent are re-parsed and re-inserted (appended) as well.  In the
scenario, the final index holds `f`'s and `h`'s definitions twice and `d`'s
once. -/
theorem C3_amended_incremental_scan_state :
    finC3.localDefinitions = [bDefC3, aDefC3, aDefC3, bDefC3, cDefC3] ∧
    finC3.localDefinitions.countP (fun d => d.fileUri == dPath) = 1 := by
  decide

/-- Counterexample to claim C4: the second definition's references list is
not `["color-a"]`. -/
theorem C4_second_refs_not_just_target :
    (c4defs.get? 1).map (fun d => d.references) ≠ some (some ["color-a"]) := by
  decide

/-- Amended claim C4: parsing the two lines produces exactly two variable
definitions, and the second definition's references list is
`["color-b", "color-a"]` — references are extracted from the whole matched
declaration text, which includes the defined variable's own name before the
referenced one. -/
theorem C4_two_defs_refs_include_own_name :
    c4defs = [c4def0, c4def1] := by
  decide

/-- Counterexample to claim C5: after scanning a file whose single import
resolves to nothing, the import cache still holds the raw unresolved path as
a dangling entry. -/
theorem C5_unresolved_import_stored :
    (scanFile fsC5a cfgT 2 fPath true emptyScanner).importCache = [(fPath, ["nothing"])] ∧
    resolveImport fsC5a fPath ("nothing") = none := by
  decide

/-- Amended claim C5: the import cache stores, for every scanned file
with import tracking on, the raw import path strings exactly as written and
before any resolution, so unresolved imports are stored too; resolution to a
concrete existing path happens only when deciding whether to recurse, and
the dependent lookup separately re-resolves the raw paths without the
extension or partial-file fallbacks. -/
theorem C5_cache_stores_raw_paths :
    (scanFile fsC5b cfgT 3 fPath true emptyScanner).importCache
      = [(fPath, ["nothing", "g.scss"]), (gPath, [])] ∧
    (scanFile fsC5b cfgT 3 fPath true emptyScanner).localDefinitions = [bDefC5] ∧
    resolveImport fsC5b fPath ("nothing") = none ∧
    resolveImport fsC5b fPath ("g.scss") = some gPath := by
  decide

/-- Claim C6: on the mutual-import cycle `a ↔ b`, a full scan terminates —
the result is the same for every fuel beyond the bound actually needed,
because the processed-file set stops the recursion on the cycle — and
afterwards `a`'s and `b`'s definitions each appear exactly once in the
index. -/
theorem C6_cycle_scan_terminates_each_def_once (fuel : Nat) :
    (scanWorkspace [("/w", treeC6)] fsC6 cfgSeq 5 (fuel + 3) noCancel emptyScanner).localDefinitions
      = [yDefC6, xDefC6] ∧
    ((scanWorkspace [("/w", treeC6)] fsC6 cfgSeq 5 (fuel + 3) noCancel emptyScanner).localDefinitions.countP
      (fun d => d.fileUri == aPath)) = 1 ∧
    ((scanWorkspace [("/w", treeC6)] fsC6 cfgSeq 5 (fuel + 3) noCancel emptyScanner).localDefinitions.countP
      (fun d => d.fileUri == bPath)) = 1 :=
  ⟨rfl, rfl, rfl⟩

/-- Claim C7: three change events for the same file at strictly increasing
times, each within less than the debounce interval of the previous one,
trigger exactly one scan — each event restarts the timer and only the last
timer, undisturbed for a full interval, fires. -/
theorem C7_debounce_coalesces_to_one_scan (d t1 t2 t3 : Nat) (h12 : t1 < t2) (h23 : t2 < t3)
    (g12 : t2 < t1 + d) (g23 : t3 < t2 + d) :
    debounceScans d [t1, t2, t3] = [t3 + d] ∧ (debounceScans d [t1, t2, t3]).length = 1 := by
  have n1 : ¬ (t1 + d ≤ t2) := by omega
  have n2 : ¬ (t2 + d ≤ t3) := by omega
  refine ⟨?_, ?_⟩ <;> simp [debounceScans, n1, n2]

/-- Witness for C7 at the concrete events 0, 50, 90 with a 100ms debounce
interval. -/
theorem C7_debounce_witness :
    debounceScans 100 [0, 50, 90] = [190] ∧ (debounceScans 100 [0, 50, 90]).length = 1 :=
  C7_debounce_coalesces_to_one_scan 100 0 50 90 (by decide) (by decide) (by decide) (by decide)

/-- Claim C8: the import-resolution fallback order of `scanFile`.  For a
relative import path, the candidate is the path resolved against
the importing file's directory; a candidate that exists is used as is; when the
candidate lacks both recognized stylesheet extensions and does not exist,
the `.scss` default extension is appended; when that still does not exist,
the same-directory underscore partial-file form of it is tried; and when
nothing exists, resolution yields no target. -/
theorem C8_import_resolution_fallback (fs : FileSys) (f p : String)
    (hrel : isAbsolutePath p = false) :
    (fsExists fs (joinPath (dirname f) p) = true →
      resolveImport fs f p = some (joinPath (dirname f) p)) ∧
    (endsWithL (joinPath (dirname f) p).data extScss = false →
     endsWithL (joinPath (dirname f) p).data extCss = false →
     fsExists fs (joinPath (dirname f) p) = false →
     fsExists fs (joinPath (dirname f) p ++ ".scss") = true →
      resolveImport fs f p = some (joinPath (dirname f) p ++ ".scss")) ∧
    (endsWithL (joinPath (dirname f) p).data extScss = false →
     endsWithL (joinPath (dirname f) p).data extCss = false →
     fsExists fs (joinPath (dirname f) p) = false →
     fsExists fs (joinPath (dirname f) p ++ ".scss") = false →
     fsExists fs (partialName (joinPath (dirname f) p ++ ".scss")) = true →
      resolveImport fs f p = some (partialName (joinPath (dirname f) p ++ ".scss"))) ∧
    (endsWithL (joinPath (dirname f) p).data extScss = false →
     endsWithL (joinPath (dirname f) p).data extCss = false →
     fsExists fs (joinPath (dirname f) p) = false →
     fsExists fs (joinPath (dirname f) p ++ ".scss") = false →
     fsExists fs (partialName (joinPath (dirname f) p ++ ".scss")) = false →
      resolveImport fs f p = none) := by
  refine ⟨?_, ?_, ?_, ?_⟩
  · intro h1
    simp [resolveImport, pathResolve, hrel, h1]
  · intro e1 e2 h1 h2
    simp [resolveImport, pathResolve, hrel, e1, e2, h1, h2]
  · intro e1 e2 h1 h2 h3
    simp [resolveImport, pathResolve, hrel, e1, e2, h1, h2, h3]
  · intro e1 e2 h1 h2 h3
    simp [resolveImport, pathResolve, hrel, e1, e2, h1, h2, h3]

/-- Witness for C8: the import `"vars"` written in `/w/main.scss` resolves
through the partial-file fallback to `/w/_vars.scss`. -/
theorem C8_resolution_witness :
    resolveImport fsW ("/w/main.scss") ("vars") = some ("/w/_vars.scss") := by
  have h := (C8_import_resolution_fallback fsW ("/w/main.scss") ("vars") (by decide)).2.2.1
    (by decide) (by decide) (by decide) (by decide) (by decide)
  exact h.trans (by decide)

/-- Counterexample to claim C9: with the default maximum scan depth 30 the
file at the bottom of the 31-deep directory chain is excluded — but raising
the maximum scan depth to 31 still excludes it, since the file itself sits
at depth 32 and the `currentDepth > maxDepth` check applies to files as
well. -/
theorem C9_depth31_still_excludes :
    findScssFiles cfgT 40 (deepChain 31) ("/w") ("") 0 = [] ∧
    findScssFiles { cfgT with maxScanDepth := 31 } 40 (deepChain 31) ("/w") ("") 0 = [] := by
  decide

/-- Amended claim C9: with the default maximum scan depth of 30, file
discovery excludes a stylesheet file located in a directory nested 31 levels
below the workspace root, and raising the maximum scan depth to 32 includes
that file; the depth check applies to files as well as directories, so a
file one level inside a depth-31 directory is itself at depth 32, and
entries at depth exactly the limit are still included. -/
theorem C9_depth32_includes_deep_file :
    findScssFiles cfgT 40 (deepChain 31) ("/w") ("") 0 = [] ∧
    (findScssFiles { cfgT with maxScanDepth := 32 } 40 (deepChain 31) ("/w") ("") 0).length = 1 ∧
    (findScssFiles { cfgT with maxScanDepth := 32 } 40 (deepChain 31) ("/w") ("") 0).all
      (fun q => endsWithL q.data extScss) = true := by
  decide

/-- Claim C10: a multi-line block comment `/*` … `* text` … `*/` directly
above a variable is not attached — the gate requires the line two above the
definition to start with `/*`, which fails for any block comment with
middle lines, so the definition's comment is `none`; and in the two-line
form where the gate passes, the collection loop stops immediately and the
attached comment is the empty string.  The code's own `Multi-line comment`
collection logic is unreachable with non-empty output. -/
theorem C10_block_comment_never_attached :
    extractVariables cfgT c10content uriF [] = [cpDefC10] ∧
    commentAbove (splitLines c10content.data) 3 = none ∧
    extractVariables cfgT c10short uriF [] = [xDefC10] := by
  decide

end SpecScan
